import Mathlib

/-!
Verification development for the WindowsToMacSpeaker UDP audio streaming
scripts (`Custom UDP Configuration/Python/`).  The definitions below are a
shallow embedding of the packet codec, the sequence trackers, the zero-loss
receiver's jitter-buffer engine, the bridge queues and the send schedulers,
translated from the Python source.  Bytes are modelled as natural numbers
below 256, byte strings as lists, wall-clock instants as rationals, and the
per-object mutable attributes as explicit state structures.
-/

/-! ## Byte-level packet codec

`struct.pack('!LQL', ...)` produces a 16-byte big-endian header.  We model a
byte string as a `List Nat` and big-endian encoding of a `w`-byte field by
`toBytesBE w`. -/

/-- Big-endian encoding of `x` into exactly `w` bytes (most significant
first), as produced by `struct.pack` with `!L` (`w = 4`) and `!Q` (`w = 8`). -/
def toBytesBE : Nat → Nat → List Nat
  | 0, _ => []
  | w + 1, x => toBytesBE w (x / 256) ++ [x % 256]

/-- Big-endian decoding of a byte string, as performed by `struct.unpack`. -/
def fromBytesBE (bs : List Nat) : Nat :=
  bs.foldl (fun acc b => acc * 256 + b) 0

theorem toBytesBE_length (w x : Nat) : (toBytesBE w x).length = w := by
  induction w generalizing x with
  | zero => rfl
  | succ w ih => simp [toBytesBE, ih]

theorem foldl_toBytesBE (w x acc : Nat) (h : x < 256 ^ w) :
    (toBytesBE w x).foldl (fun a b => a * 256 + b) acc = acc * 256 ^ w + x := by
  induction w generalizing x acc with
  | zero =>
    interval_cases x
    simp [toBytesBE]
  | succ w ih =>
    have hdiv : x / 256 < 256 ^ w := by
      rw [Nat.div_lt_iff_lt_mul (by norm_num)]
      calc x < 256 ^ (w + 1) := h
        _ = 256 ^ w * 256 := by ring
    simp only [toBytesBE, List.foldl_append, List.foldl_cons, List.foldl_nil, ih _ _ hdiv]
    have := Nat.div_add_mod x 256
    ring_nf
    omega

theorem fromBytesBE_toBytesBE (w x : Nat) (h : x < 256 ^ w) :
    fromBytesBE (toBytesBE w x) = x := by
  simpa [fromBytesBE] using foldl_toBytesBE w x 0 h

/-- Header + payload framing used by `sender.py` (`audio_callback`) and
`sender_zero_loss.py` (`send_frame`):
`struct.pack('!LQL', packet_count, timestamp, opus_length) + opus_data`. -/
def encodePacket (seq ts : Nat) (payload : List Nat) : List Nat :=
  toBytesBE 4 seq ++ toBytesBE 8 ts ++ toBytesBE 4 payload.length ++ payload

/-- A parsed packet as built by `reciever.py`'s `parse_udp_packet`. -/
structure ParsedPacket where
  packet_count : Nat
  timestamp : Nat
  opus_length : Nat
  opus_data : List Nat
deriving DecidableEq, Repr

/-- The header size used by every variant. -/
def packet_header_size : Nat := 16

/-- The declared payload length: bytes 12..15 of the datagram, big-endian
(`struct.unpack('!LQL', packet[:16])[2]`). -/
def declaredLen (packet : List Nat) : Nat :=
  fromBytesBE ((packet.drop 12).take 4)

/-- `reciever.py` `parse_udp_packet` (lines 321-344): reject datagrams shorter
than 16 bytes, then reject unless the total length equals
`packet_header_size + opus_length`. -/
def parse_udp_packet (packet : List Nat) : Option ParsedPacket :=
  if packet.length < packet_header_size then none
  else
    let packet_count := fromBytesBE (packet.take 4)
    let timestamp := fromBytesBE ((packet.drop 4).take 8)
    let opus_length := declaredLen packet
    if packet.length = packet_header_size + opus_length then
      some ⟨packet_count, timestamp, opus_length,
        (packet.drop packet_header_size).take opus_length⟩
    else none

/-- The inline datagram parsing of `receiver_zero_loss.py` `receive_packets`
(lines 230-244): reject if shorter than 16 bytes, then accept whenever
`len(data) >= 16 + opus_length`, slicing `data[16:16+opus_length]`. -/
def zl_parse (data : List Nat) : Option ParsedPacket :=
  if data.length < 16 then none
  else
    let packet_count := fromBytesBE (data.take 4)
    let timestamp := fromBytesBE ((data.drop 4).take 8)
    let opus_length := declaredLen data
    if 16 + opus_length ≤ data.length then
      some ⟨packet_count, timestamp, opus_length, (data.drop 16).take opus_length⟩
    else none

/-- The inline datagram parsing of `receiver.py` `receive_packets`
(lines 280-285): reject if shorter than 16 bytes, otherwise accept with
`opus_data = packet[16:16+opus_length]` and no further length validation
(a truncated payload is silently shortened by the slice). -/
def r1_parse (packet : List Nat) : Option ParsedPacket :=
  if packet.length < 16 then none
  else
    let sequence := fromBytesBE (packet.take 4)
    let timestamp := fromBytesBE ((packet.drop 4).take 8)
    let opus_length := declaredLen packet
    some ⟨sequence, timestamp, opus_length, (packet.drop 16).take opus_length⟩

/-! ## Sequence trackers

Two receiver variants track sequence numbers on the receive path. -/

/-- The sequence-tracking state of `reciever.py` `receive_packets`
(lines 446-466): a set of seen sequences for duplicate detection, the last
accepted sequence, and the three classification counters. -/
structure RxTracker where
  received_sequences : List Nat
  last_sequence : Option Nat
  duplicate_packets : Nat
  out_of_order_packets : Nat
  lost_packets : Nat
deriving DecidableEq, Repr

/-- Fresh tracker state (`last_sequence = None`, empty seen set). -/
def rxInit : RxTracker := ⟨[], none, 0, 0, 0⟩

/-- One packet through the tracker of `reciever.py` `receive_packets`
(lines 446-466): duplicates are counted and skipped; otherwise the sequence is
recorded, a smaller-than-expected sequence increments `out_of_order_packets`,
a larger-than-expected one adds the gap to `lost_packets`, and in every
non-duplicate case `last_sequence` is set to the arriving sequence. -/
def rx_track (s : RxTracker) (packet_count : Nat) : RxTracker :=
  if packet_count ∈ s.received_sequences then
    { s with duplicate_packets := s.duplicate_packets + 1 }
  else
    let s := { s with received_sequences := packet_count :: s.received_sequences }
    match s.last_sequence with
    | none => { s with last_sequence := some packet_count }
    | some last =>
      let expected_sequence := last + 1
      if packet_count = expected_sequence then
        { s with last_sequence := some packet_count }
      else if packet_count < expected_sequence then
        { s with out_of_order_packets := s.out_of_order_packets + 1,
                 last_sequence := some packet_count }
      else
        { s with lost_packets := s.lost_packets + (packet_count - expected_sequence),
                 last_sequence := some packet_count }

/-- The sequence-tracking state of `receiver.py` `receive_packets`
(lines 287-296): `last_sequence` starts at `-1` and `lost_packets` is a plain
Python integer, so it can go negative. -/
structure R1Tracker where
  last_sequence : Int
  lost_packets : Int
deriving DecidableEq, Repr

/-- Fresh tracker state of `receiver.py` (`last_sequence = -1`). -/
def r1Init : R1Tracker := ⟨-1, 0⟩

/-- One packet through the tracker of `receiver.py` `receive_packets`
(lines 287-296): any sequence different from `last_sequence + 1` adds the
signed difference `sequence - expected_sequence` to `lost_packets`, and
`last_sequence` is set to the arriving sequence unconditionally. -/
def r1_track (s : R1Tracker) (sequence : Nat) : R1Tracker :=
  let s1 :=
    if s.last_sequence ≠ -1 then
      let expected_sequence : Int := s.last_sequence + 1
      if (sequence : Int) ≠ expected_sequence then
        { s with lost_packets := s.lost_packets + ((sequence : Int) - expected_sequence) }
      else s
    else s
  { s1 with last_sequence := (sequence : Int) }

/-! ## Bridge queues

Fixed-capacity frame queues between the audio callbacks and the network
threads.  A Python `queue.Queue(maxsize=n)` / bounded list is modelled as a
`List` with the head as the oldest element. -/

/-- `sender_zero_loss.py` `audio_callback` (lines 115-124): `put_nowait`; on
`queue.Full`, `get_nowait()` removes the oldest frame and the new frame is
enqueued (`audio_queue` has `maxsize=5`). -/
def zl_sender_enqueue {α : Type} (q : List α) (x : α) : List α :=
  if q.length < 5 then q ++ [x] else q.drop 1 ++ [x]

/-- `receiver_zero_loss.py` playback enqueue (`process_jitter_buffer`
lines 187-194 and `handle_packet_loss` lines 167-171): `put_nowait`; on
`queue.Full` the frame is simply discarded (`playback_queue` has
`maxsize=20`). -/
def zl_playback_enqueue {α : Type} (q : List α) (x : α) : List α :=
  if q.length < 20 then q ++ [x] else q

/-- `receiver.py` `receive_packets` (lines 307-316): if the queue holds fewer
than 10 frames, append; otherwise `pop(0)` the oldest frame and append the
new one. -/
def r1_enqueue {α : Type} (q : List α) (x : α) : List α :=
  if q.length < 10 then q ++ [x] else q.drop 1 ++ [x]

/-! ## Zero-loss receiver jitter-buffer engine

`receiver_zero_loss.py` keeps a dict `jitter_buffer : packet_count ->
(timestamp, opus_data)`, an `expected_packet` cursor, an adaptive
`jitter_buffer_size`, and pushes decoded or concealment frames onto the
playback queue.  We model the dict as an association list with unique keys,
and record two history variables not stored by the source: `output`, the
frames actually enqueued on the playback queue, and `loss_events`, the
sequence numbers passed to `handle_packet_loss`. -/

/-- A frame pushed to the playback queue: the decoded audio of the packet
with the given sequence and opus payload, or the silence frame generated by
`handle_packet_loss` for the given missing sequence. -/
inductive PFrame where
  | decoded (seq : Nat) (opus_data : List Nat)
  | silence (seq : Nat)
deriving DecidableEq, Repr

/-- The sequence number a playback frame stands for. -/
def PFrame.seq : PFrame → Nat
  | .decoded s _ => s
  | .silence s => s

/-- Whether a playback frame is decoded packet audio (not concealment). -/
def PFrame.isDecoded : PFrame → Bool
  | .decoded _ _ => true
  | .silence _ => false

/-- State of `ZeroLossUDPReceiver` restricted to the jitter-buffer engine
(`__init__` lines 63-80): buffer, adaptive size (initially 5, max 10),
ordering cursors, playback queue and counters, plus the two history
variables. -/
structure ZLState where
  jitter_buffer : List (Nat × Nat × List Nat)
  jitter_buffer_size : Nat
  max_jitter_buffer : Nat
  expected_packet : Nat
  last_played_packet : Nat
  playback_queue : List PFrame
  packets_received : Nat
  packets_lost : Nat
  packets_late : Nat
  packets_duplicate : Nat
  output : List PFrame
  loss_events : List Nat
deriving DecidableEq, Repr

/-- The engine state right after `start_receiving` resets the counters
(lines 307-319), with a configurable initial `jitter_buffer_size`. -/
def zlStart (size : Nat) : ZLState :=
  { jitter_buffer := []
    jitter_buffer_size := size
    max_jitter_buffer := 10
    expected_packet := 1
    last_played_packet := 0
    playback_queue := []
    packets_received := 0
    packets_lost := 0
    packets_late := 0
    packets_duplicate := 0
    output := []
    loss_events := [] }

/-- The engine state as constructed by `__init__` (`jitter_buffer_size = 5`). -/
def zlInit : ZLState := zlStart 5

/-- Packet admission from `receive_packets` (lines 246-257): a sequence below
`expected_packet` is counted late and dropped, a sequence already buffered is
counted duplicate and dropped, anything else is inserted into the buffer
(`packets_received` is incremented for every datagram beforehand, line 228). -/
def admitPacket (s : ZLState) (packet_count ts : Nat) (opus_data : List Nat) : ZLState :=
  if packet_count < s.expected_packet then
    { s with packets_received := s.packets_received + 1
             packets_late := s.packets_late + 1 }
  else if (s.jitter_buffer.lookup packet_count).isSome then
    { s with packets_received := s.packets_received + 1
             packets_duplicate := s.packets_duplicate + 1 }
  else
    { s with packets_received := s.packets_received + 1
             jitter_buffer := s.jitter_buffer ++ [(packet_count, ts, opus_data)] }

/-- `handle_packet_loss` (lines 162-174): enqueue a silence frame
(`np.zeros`) if the playback queue is not full, and count the loss. -/
def handle_packet_loss (s : ZLState) (missing_packet : Nat) : ZLState :=
  { s with playback_queue := zl_playback_enqueue s.playback_queue (.silence missing_packet)
           output := if s.playback_queue.length < 20 then
               s.output ++ [PFrame.silence missing_packet] else s.output
           loss_events := s.loss_events ++ [missing_packet]
           packets_lost := s.packets_lost + 1 }

/-- Adaptive sizing at the end of each `process_jitter_buffer` cycle
(lines 210-219): grow by one while occupancy exceeds the size and the size is
below `max_jitter_buffer`; shrink by one (floored at 3) when the buffer is
empty and the size is above 3. -/
def adaptSize (s : ZLState) : ZLState :=
  if s.jitter_buffer.length > s.jitter_buffer_size then
    if s.jitter_buffer_size < s.max_jitter_buffer then
      { s with jitter_buffer_size := s.jitter_buffer_size + 1 }
    else s
  else if s.jitter_buffer.length = 0 ∧ s.jitter_buffer_size > 3 then
    { s with jitter_buffer_size := max 3 (s.jitter_buffer_size - 1) }
  else s

/-- One iteration of the `process_jitter_buffer` loop (lines 176-219), with
the 5 ms sleeps elided.  If `expected_packet` is buffered it is popped,
decoded and enqueued (`last_played_packet` is updated only when the enqueue
succeeds, lines 189-194) and the cursor advances.  Otherwise the engine waits
unless the buffer occupancy strictly exceeds `jitter_buffer_size`
(`buffer_delay > jitter_buffer_size * frame_duration / 1000` with
`buffer_delay = len(jitter_buffer) * frame_duration / 1000` and
`frame_duration = 20 > 0`), in which case the slot is concealed.  The
adaptive sizing check runs at the end of the cycle in every case. -/
def processStep (s : ZLState) : ZLState :=
  let s1 :=
    match s.jitter_buffer.lookup s.expected_packet with
    | some (_, opus_data) =>
      let popped := s.jitter_buffer.filter (fun e => e.1 ≠ s.expected_packet)
      { s with jitter_buffer := popped
               playback_queue :=
                 zl_playback_enqueue s.playback_queue (.decoded s.expected_packet opus_data)
               output := if s.playback_queue.length < 20 then
                   s.output ++ [PFrame.decoded s.expected_packet opus_data] else s.output
               last_played_packet := if s.playback_queue.length < 20 then
                   s.expected_packet else s.last_played_packet
               expected_packet := s.expected_packet + 1 }
    | none =>
      if s.jitter_buffer.length > s.jitter_buffer_size then
        let s2 := handle_packet_loss s s.expected_packet
        { s2 with expected_packet := s2.expected_packet + 1 }
      else s
  adaptSize s1

/-- An event of the concurrent receiver: a parsed datagram admitted by the
receive thread, or one cycle of the jitter-buffer processing thread. -/
inductive JEvent where
  | arrival (packet_count ts : Nat) (opus_data : List Nat)
  | step
deriving DecidableEq, Repr

/-- Apply one event to the engine state. -/
def applyEvent (s : ZLState) : JEvent → ZLState
  | .arrival pc ts d => admitPacket s pc ts d
  | .step => processStep s

/-- Run a list of events (arbitrary interleaving of the two threads). -/
def runEvents (s : ZLState) : List JEvent → ZLState
  | [] => s
  | e :: es => runEvents (applyEvent s e) es

/-! ## Concealment audio

Audio samples are modelled as rationals (the float operations involved —
filling with zeros and halving — are exact). -/

/-- `np.zeros(n)`: a silent frame of `n` samples. -/
def np_zeros (n : Nat) : List ℚ := List.replicate n 0

/-- The concealment frame built by `receiver_zero_loss.py`
`handle_packet_loss` (line 165): always
`np.zeros((frame_samples, channels))`, independent of any previously played
audio. -/
def zl_concealment (frame_samples channels : Nat) : List ℚ :=
  np_zeros (frame_samples * channels)

/-- `reciever.py` `generate_concealment_audio` (lines 581-589): silence when
no frame has been played yet, otherwise the last played frame attenuated by
the factor 0.5. -/
def generate_concealment_audio (frame_samples channels : Nat)
    (last_audio_frame : Option (List ℚ)) : List ℚ :=
  match last_audio_frame with
  | none => np_zeros (frame_samples * channels)
  | some f => f.map (fun x => x * (1 / 2))

/-! ## Transmission schedulers

Send failures are external (kernel/network), so a send attempt's outcome is
an input `Bool` to the step functions.  Times are rationals in seconds. -/

/-- Scheduler state of `sender.py` (`__init__` lines 90-112):
`next_send_time`, the sequence counter `packet_count`, and the
`send_with_retry` counters. -/
structure SPState where
  packet_count : Nat
  next_send_time : ℚ
  packets_sent : Nat
  send_errors : Nat
deriving DecidableEq, Repr

/-- `sender.py` state right after the `start_streaming` reset
(lines 345-348): `packet_count = 0`, `next_send_time = 0.0`. -/
def spInit : SPState := ⟨0, 0, 0, 0⟩

/-- `sender.py` `send_with_retry` (lines 522-537): up to `retries` attempts;
a successful attempt increments `packets_sent` and returns `True`, each
failed attempt increments `send_errors`; after the last failure the function
returns `False`.  `outcomes` lists the success of each attempted `sendto`. -/
def send_with_retry (s : SPState) : List Bool → SPState × Bool
  | [] => (s, false)
  | ok :: rest =>
    if ok then ({ s with packets_sent := s.packets_sent + 1 }, true)
    else send_with_retry { s with send_errors := s.send_errors + 1 } rest

/-- The header built by `sender.py` `audio_callback` (line 300):
`struct.pack('!LQL', self.packet_count, timestamp, opus_length)` — the
current `packet_count` is used *before* it is incremented. -/
def sp_packet (s : SPState) (ts : Nat) (opus_data : List Nat) : List Nat :=
  encodePacket s.packet_count ts opus_data

/-- The send section of `sender.py` `audio_callback` (lines 310-320): call
`send_with_retry`; only on success are `packet_count` incremented and
`next_send_time` advanced by one frame interval. -/
def sp_send_packet (frame_interval : ℚ) (s : SPState) (outcomes : List Bool) : SPState :=
  let r := send_with_retry s outcomes
  if r.2 then
    { r.1 with packet_count := r.1.packet_count + 1
               next_send_time := r.1.next_send_time + frame_interval }
  else r.1

/-- Scheduler state of `sender_zero_loss.py` (`__init__` lines 55-71). -/
structure ZLSPState where
  packet_count : Nat
  next_send_time : ℚ
  packets_sent : Nat
  send_errors : Nat
deriving DecidableEq, Repr

/-- `sender_zero_loss.py` `send_frame` (lines 126-154): `packet_count` is
incremented before the header is packed; a successful `sendto` increments
`packets_sent`, an exception increments `send_errors` and returns `False`. -/
def zl_send_frame (s : ZLSPState) (sendOk : Bool) : ZLSPState × Bool :=
  let s := { s with packet_count := s.packet_count + 1 }
  if sendOk then ({ s with packets_sent := s.packets_sent + 1 }, true)
  else ({ s with send_errors := s.send_errors + 1 }, false)

/-- The per-frame body of `sender_zero_loss.py` `transmission_thread`
(lines 177-191): `send_frame` is called with its result discarded, then
`next_send_time += frame_interval` unconditionally
(`frame_interval = 0.02`). -/
def zl_transmit_frame (s : ZLSPState) (sendOk : Bool) : ZLSPState :=
  let s1 := (zl_send_frame s sendOk).1
  { s1 with next_send_time := s1.next_send_time + 1 / 50 }

/-! ## Invariants of the jitter-buffer engine -/

/-- The sequence numbers of the frames enqueued for playback, in order. -/
def outputSeqs (s : ZLState) : List Nat := s.output.map PFrame.seq

theorem lookup_isSome_of_mem {β : Type} {l : List (Nat × β)} {k : Nat} {v : β}
    (h : (k, v) ∈ l) : (l.lookup k).isSome := by
  induction l with
  | nil => simp at h
  | cons a t ih =>
    obtain ⟨k', v'⟩ := a
    rcases List.mem_cons.mp h with h | h
    · injection h with h1 h2
      subst h1
      simp [List.lookup]
    · cases hbeq : k == k' with
      | true => simp [List.lookup, hbeq]
      | false => simpa [List.lookup, hbeq] using ih h

theorem chain_append_lt {l : List Nat} {y : Nat} (hc : List.Chain' (· < ·) l)
    (hy : ∀ x ∈ l, x < y) : List.Chain' (· < ·) (l ++ [y]) := by
  rw [List.chain'_append]
  refine ⟨hc, List.chain'_singleton y, ?_⟩
  intro x hx z hz
  simp only [List.head?_cons, Option.mem_def, Option.some.injEq] at hz
  subst hz
  obtain ⟨_, rfl⟩ := List.mem_getLast?_eq_getLast hx
  exact hy _ (List.getLast_mem _)

/-- The engine invariant: every enqueued frame and every concealed sequence
lies strictly below the cursor (and at or above the initial cursor 1), the
enqueued sequence numbers are strictly increasing, buffered packets lie at or
above the cursor, and no decoded frame's sequence number was ever concealed. -/
structure ZLInv (s : ZLState) : Prop where
  exp_ge_one : 1 ≤ s.expected_packet
  out_lt : ∀ f ∈ s.output, f.seq < s.expected_packet
  out_ge_one : ∀ f ∈ s.output, 1 ≤ f.seq
  chain : List.Chain' (· < ·) (s.output.map PFrame.seq)
  buf_ge : ∀ e ∈ s.jitter_buffer, s.expected_packet ≤ e.1
  loss_lt : ∀ l ∈ s.loss_events, l < s.expected_packet
  loss_ge_one : ∀ l ∈ s.loss_events, 1 ≤ l
  disj : ∀ f ∈ s.output, f.isDecoded = true → f.seq ∉ s.loss_events

theorem zlInv_start (size : Nat) : ZLInv (zlStart size) := by
  constructor <;> simp [zlStart]

theorem adaptSize_eq_fields (s : ZLState) :
    (adaptSize s).output = s.output ∧ (adaptSize s).jitter_buffer = s.jitter_buffer ∧
    (adaptSize s).expected_packet = s.expected_packet ∧
    (adaptSize s).loss_events = s.loss_events ∧
    (adaptSize s).max_jitter_buffer = s.max_jitter_buffer ∧
    (adaptSize s).packets_late = s.packets_late ∧
    (adaptSize s).playback_queue = s.playback_queue ∧
    (adaptSize s).packets_lost = s.packets_lost := by
  unfold adaptSize
  split
  · split <;> simp
  · split <;> simp

theorem zlInv_adaptSize (s : ZLState) (h : ZLInv s) : ZLInv (adaptSize s) := by
  obtain ⟨ho, hb, he, hl, -, -, -, -⟩ := adaptSize_eq_fields s
  exact ⟨he ▸ h.exp_ge_one, ho ▸ he ▸ h.out_lt, ho ▸ h.out_ge_one, ho ▸ h.chain,
    hb ▸ he ▸ h.buf_ge, hl ▸ he ▸ h.loss_lt, hl ▸ h.loss_ge_one, ho ▸ hl ▸ h.disj⟩

theorem zlInv_arrival (s : ZLState) (pc ts : Nat) (d : List Nat) (h : ZLInv s) :
    ZLInv (admitPacket s pc ts d) := by
  unfold admitPacket
  split
  · exact { h with }
  · split
    · exact { h with }
    · rename_i hlate _
      refine { h with buf_ge := ?_ }
      intro e he
      rcases List.mem_append.mp he with he | he
      · exact h.buf_ge e he
      · simp only [List.mem_singleton] at he
        subst he
        exact Nat.le_of_not_lt hlate


theorem zlInv_release_aux (s : ZLState) (h : ZLInv s) (d' : List Nat)
    (q' : List PFrame) (lp' : Nat) (out' : List PFrame)
    (hout : out' = s.output ++ [PFrame.decoded s.expected_packet d'] ∨ out' = s.output) :
    ZLInv { s with jitter_buffer := s.jitter_buffer.filter (fun e => e.1 ≠ s.expected_packet)
                   playback_queue := q'
                   last_played_packet := lp'
                   output := out'
                   expected_packet := s.expected_packet + 1 } := by
  have hout_mem : ∀ f ∈ out', f ∈ s.output ∨ f = PFrame.decoded s.expected_packet d' := by
    intro f hf
    rcases hout with rfl | rfl
    · rcases List.mem_append.mp hf with hf | hf
      · exact Or.inl hf
      · exact Or.inr (List.mem_singleton.mp hf)
    · exact Or.inl hf
  constructor
  case exp_ge_one => exact Nat.le_succ_of_le h.exp_ge_one
  case out_lt =>
    intro f hf
    rcases hout_mem f hf with hf | rfl
    · exact Nat.lt_succ_of_lt (h.out_lt f hf)
    · simp [PFrame.seq]
  case out_ge_one =>
    intro f hf
    rcases hout_mem f hf with hf | rfl
    · exact h.out_ge_one f hf
    · simpa [PFrame.seq] using h.exp_ge_one
  case chain =>
    rcases hout with rfl | rfl
    · simp only [List.map_append, List.map_cons, List.map_nil]
      exact chain_append_lt h.chain (by
        intro x hx
        obtain ⟨f, hf, rfl⟩ := List.mem_map.mp hx
        exact h.out_lt f hf)
    · exact h.chain
  case buf_ge =>
    intro e he
    dsimp only at he ⊢
    have hm := List.mem_filter.mp he
    have h1 := h.buf_ge e hm.1
    have h2 : e.1 ≠ s.expected_packet := by simpa using hm.2
    omega
  case loss_lt =>
    intro l hl
    exact Nat.lt_succ_of_lt (h.loss_lt l hl)
  case loss_ge_one => exact h.loss_ge_one
  case disj =>
    intro f hf hdec
    rcases hout_mem f hf with hf | rfl
    · exact h.disj f hf hdec
    · simp only [PFrame.seq]
      intro hmem
      exact absurd (h.loss_lt _ hmem) (by omega)

theorem zlInv_conceal_aux (s : ZLState) (h : ZLInv s)
    (hnone : s.jitter_buffer.lookup s.expected_packet = none)
    (q' : List PFrame) (out' : List PFrame)
    (hout : out' = s.output ++ [PFrame.silence s.expected_packet] ∨ out' = s.output) :
    ZLInv { s with playback_queue := q'
                   output := out'
                   loss_events := s.loss_events ++ [s.expected_packet]
                   packets_lost := s.packets_lost + 1
                   expected_packet := s.expected_packet + 1 } := by
  have hout_mem : ∀ f ∈ out', f ∈ s.output ∨ f = PFrame.silence s.expected_packet := by
    intro f hf
    rcases hout with rfl | rfl
    · rcases List.mem_append.mp hf with hf | hf
      · exact Or.inl hf
      · exact Or.inr (List.mem_singleton.mp hf)
    · exact Or.inl hf
  constructor
  case exp_ge_one => exact Nat.le_succ_of_le h.exp_ge_one
  case out_lt =>
    intro f hf
    rcases hout_mem f hf with hf | rfl
    · exact Nat.lt_succ_of_lt (h.out_lt f hf)
    · simp [PFrame.seq]
  case out_ge_one =>
    intro f hf
    rcases hout_mem f hf with hf | rfl
    · exact h.out_ge_one f hf
    · simpa [PFrame.seq] using h.exp_ge_one
  case chain =>
    rcases hout with rfl | rfl
    · simp only [List.map_append, List.map_cons, List.map_nil]
      exact chain_append_lt h.chain (by
        intro x hx
        obtain ⟨f, hf, rfl⟩ := List.mem_map.mp hx
        exact h.out_lt f hf)
    · exact h.chain
  case buf_ge =>
    intro e he
    have h1 := h.buf_ge e he
    have h2 : e.1 ≠ s.expected_packet := by
      intro heq
      have hmem : (s.expected_packet, e.2) ∈ s.jitter_buffer := by
        rw [← heq]
        exact he
      have := lookup_isSome_of_mem hmem
      rw [hnone] at this
      simp at this
    dsimp only
    omega
  case loss_lt =>
    intro l hl
    dsimp only at hl ⊢
    rcases List.mem_append.mp hl with hl | hl
    · exact Nat.lt_succ_of_lt (h.loss_lt l hl)
    · simp only [List.mem_singleton] at hl
      omega
  case loss_ge_one =>
    intro l hl
    rcases List.mem_append.mp hl with hl | hl
    · exact h.loss_ge_one l hl
    · simp only [List.mem_singleton] at hl
      exact hl ▸ h.exp_ge_one
  case disj =>
    intro f hf hdec
    rcases hout_mem f hf with hf | rfl
    · intro hcontra
      rcases List.mem_append.mp hcontra with hc | hc
      · exact h.disj f hf hdec hc
      · simp only [List.mem_singleton] at hc
        exact absurd (hc ▸ h.out_lt f hf) (by omega)
    · simp [PFrame.isDecoded] at hdec

theorem zlInv_processStep (s : ZLState) (h : ZLInv s) : ZLInv (processStep s) := by
  unfold processStep
  apply zlInv_adaptSize
  split
  · rename_i ts2 d2 hcase
    by_cases hq : s.playback_queue.length < 20
    · simpa only [if_pos hq] using zlInv_release_aux s h d2 _ _ _ (Or.inl rfl)
    · simpa only [if_neg hq] using zlInv_release_aux s h d2 _ _ _ (Or.inr rfl)
  · rename_i hcase
    split
    · simp only [handle_packet_loss, zl_playback_enqueue]
      by_cases hq : s.playback_queue.length < 20
      · simpa only [if_pos hq] using zlInv_conceal_aux s h hcase _ _ (Or.inl rfl)
      · simpa only [if_neg hq] using zlInv_conceal_aux s h hcase _ _ (Or.inr rfl)
    · exact h

theorem zlInv_applyEvent (s : ZLState) (e : JEvent) (h : ZLInv s) : ZLInv (applyEvent s e) := by
  cases e with
  | arrival pc ts d => exact zlInv_arrival s pc ts d h
  | step => exact zlInv_processStep s h

theorem zlInv_runEvents (s : ZLState) (evs : List JEvent) (h : ZLInv s) :
    ZLInv (runEvents s evs) := by
  induction evs generalizing s with
  | nil => exact h
  | cons e es ih => exact ih _ (zlInv_applyEvent s e h)

theorem runEvents_append (s : ZLState) (l1 l2 : List JEvent) :
    runEvents s (l1 ++ l2) = runEvents (runEvents s l1) l2 := by
  induction l1 generalizing s with
  | nil => rfl
  | cons e es ih => simp [runEvents, ih]

theorem expected_mono_applyEvent (s : ZLState) (e : JEvent) :
    s.expected_packet ≤ (applyEvent s e).expected_packet := by
  cases e with
  | arrival pc ts d =>
    simp only [applyEvent]
    unfold admitPacket
    split
    · exact Nat.le_refl _
    · split <;> exact Nat.le_refl _
  | step =>
    simp only [applyEvent]
    unfold processStep
    rw [(adaptSize_eq_fields _).2.2.1]
    split
    · exact Nat.le_succ _
    · split
      · exact Nat.le_succ _
      · exact Nat.le_refl _

theorem expected_mono_runEvents (s : ZLState) (evs : List JEvent) :
    s.expected_packet ≤ (runEvents s evs).expected_packet := by
  induction evs generalizing s with
  | nil => exact le_refl _
  | cons e es ih => exact le_trans (expected_mono_applyEvent s e) (ih _)

/-- Bounds on the adaptive jitter-buffer size: the maximum is the constant 10
(`max_jitter_buffer`) and the size stays in `[3, 10]`. -/
def SizeInv (s : ZLState) : Prop :=
  s.max_jitter_buffer = 10 ∧ 3 ≤ s.jitter_buffer_size ∧ s.jitter_buffer_size ≤ 10

theorem adaptSize_size_bounds (t : ZLState) (hm : t.max_jitter_buffer = 10)
    (h3 : 3 ≤ t.jitter_buffer_size) (h10 : t.jitter_buffer_size ≤ 10) :
    SizeInv (adaptSize t) := by
  unfold SizeInv adaptSize
  split
  · split
    · rename_i hlt
      rw [hm] at hlt
      exact ⟨hm, by dsimp only; omega, by dsimp only; omega⟩
    · exact ⟨hm, h3, h10⟩
  · split
    · exact ⟨hm, by dsimp only; omega, by dsimp only; omega⟩
    · exact ⟨hm, h3, h10⟩

theorem sizeInv_applyEvent (s : ZLState) (e : JEvent) (h : SizeInv s) :
    SizeInv (applyEvent s e) := by
  obtain ⟨hm, h3, h10⟩ := h
  cases e with
  | arrival pc ts d =>
    simp only [applyEvent]
    unfold admitPacket
    split
    · exact ⟨hm, h3, h10⟩
    · split <;> exact ⟨hm, h3, h10⟩
  | step =>
    simp only [applyEvent]
    unfold processStep
    split
    · exact adaptSize_size_bounds _ hm h3 h10
    · split
      · exact adaptSize_size_bounds _ hm h3 h10
      · exact adaptSize_size_bounds _ hm h3 h10

theorem sizeInv_runEvents (s : ZLState) (evs : List JEvent) (h : SizeInv s) :
    SizeInv (runEvents s evs) := by
  induction evs generalizing s with
  | nil => exact h
  | cons e es ih => exact ih _ (sizeInv_applyEvent s e h)

/-- Growth of the adaptive size happens only under the conditions of
lines 211-215: occupancy strictly above the size and size strictly below the
maximum. -/
theorem adaptSize_incr_iff (t : ZLState)
    (h : t.jitter_buffer_size < (adaptSize t).jitter_buffer_size) :
    t.jitter_buffer.length > t.jitter_buffer_size ∧
      t.jitter_buffer_size < t.max_jitter_buffer := by
  unfold adaptSize at h
  split at h
  · split at h
    · rename_i h1 h2
      exact ⟨h1, h2⟩
    · omega
  · split at h
    · dsimp only at h
      omega
    · omega

/-- Shrinking of the adaptive size happens only under the conditions of
lines 216-219: empty buffer and size strictly above 3. -/
theorem adaptSize_decr_iff (t : ZLState)
    (h : (adaptSize t).jitter_buffer_size < t.jitter_buffer_size) :
    t.jitter_buffer.length = 0 ∧ 3 < t.jitter_buffer_size := by
  unfold adaptSize at h
  split at h
  · split at h
    · dsimp only at h
      omega
    · omega
  · split at h
    · rename_i h1
      exact ⟨h1.1, h1.2⟩
    · omega

/-! ## Claim theorems -/

/-- C1: for every sequence of events (packets admitted in any order, with
duplicates and gaps, interleaved with processing cycles), the frames the
zero-loss engine enqueues for playback have strictly increasing sequence
numbers with no repeats; a sequence number concealed as lost is never
released as a decoded frame, and a packet carrying it (or any sequence below
`expected_packet`) is dropped by admission with only the late counter
incremented; `expected_packet` never decreases as further events occur. -/
theorem C1_release_ordering_invariant (events more : List JEvent) :
    List.Chain' (· < ·) (outputSeqs (runEvents zlInit events)) ∧
    (outputSeqs (runEvents zlInit events)).Nodup ∧
    (∀ f ∈ (runEvents zlInit events).output, f.isDecoded = true →
      f.seq ∉ (runEvents zlInit events).loss_events) ∧
    (∀ pc ts d, pc < (runEvents zlInit events).expected_packet →
      admitPacket (runEvents zlInit events) pc ts d =
        { runEvents zlInit events with
            packets_received := (runEvents zlInit events).packets_received + 1
            packets_late := (runEvents zlInit events).packets_late + 1 }) ∧
    (∀ l ∈ (runEvents zlInit events).loss_events, ∀ ts d,
      admitPacket (runEvents zlInit events) l ts d =
        { runEvents zlInit events with
            packets_received := (runEvents zlInit events).packets_received + 1
            packets_late := (runEvents zlInit events).packets_late + 1 }) ∧
    (runEvents zlInit events).expected_packet ≤
      (runEvents zlInit (events ++ more)).expected_packet := by
  have hinv := zlInv_runEvents zlInit events (zlInv_start 5)
  have hlate : ∀ pc, pc < (runEvents zlInit events).expected_packet → ∀ ts d,
      admitPacket (runEvents zlInit events) pc ts d =
        { runEvents zlInit events with
            packets_received := (runEvents zlInit events).packets_received + 1
            packets_late := (runEvents zlInit events).packets_late + 1 } := by
    intro pc hlt ts d
    unfold admitPacket
    rw [if_pos hlt]
  refine ⟨hinv.chain, ?_, hinv.disj, fun pc ts d hlt => hlate pc hlt ts d,
    fun l hl ts d => hlate l (hinv.loss_lt l hl) ts d, ?_⟩
  · exact ((List.chain'_iff_pairwise.mp hinv.chain).imp fun h => Nat.ne_of_lt h)
  · rw [runEvents_append]
    exact expected_mono_runEvents _ more

/-- Witness for C1 at a concrete event trace (reorder, duplicate, gap). -/
theorem C1_release_ordering_invariant_witness :
    List.Chain' (· < ·) (outputSeqs (runEvents zlInit
      [JEvent.arrival 2 0 [7], JEvent.step, JEvent.arrival 1 0 [5], JEvent.arrival 2 0 [7]])) ∧
    (outputSeqs (runEvents zlInit
      [JEvent.arrival 2 0 [7], JEvent.step, JEvent.arrival 1 0 [5], JEvent.arrival 2 0 [7]])).Nodup :=
  ⟨(C1_release_ordering_invariant
      [JEvent.arrival 2 0 [7], JEvent.step, JEvent.arrival 1 0 [5], JEvent.arrival 2 0 [7]]
      [JEvent.step]).1,
   (C1_release_ordering_invariant
      [JEvent.arrival 2 0 [7], JEvent.step, JEvent.arrival 1 0 [5], JEvent.arrival 2 0 [7]]
      [JEvent.step]).2.1⟩

/-- C8: under every sequence of events, the zero-loss receiver's adaptive
`jitter_buffer_size` stays within the bounds `[3, 10]`
(`max_jitter_buffer = 10`, hard floor 3); it grows only when buffer occupancy
strictly exceeds the current size while the size is below the maximum, and it
shrinks only when the buffer is empty while the size is above 3. -/
theorem C8_adaptive_depth_bounds (events : List JEvent) (t : ZLState) :
    (3 ≤ (runEvents zlInit events).jitter_buffer_size ∧
      (runEvents zlInit events).jitter_buffer_size ≤ 10) ∧
    (t.jitter_buffer_size < (adaptSize t).jitter_buffer_size →
      t.jitter_buffer.length > t.jitter_buffer_size ∧
        t.jitter_buffer_size < t.max_jitter_buffer) ∧
    ((adaptSize t).jitter_buffer_size < t.jitter_buffer_size →
      t.jitter_buffer.length = 0 ∧ 3 < t.jitter_buffer_size) := by
  refine ⟨?_, adaptSize_incr_iff t, adaptSize_decr_iff t⟩
  have h := sizeInv_runEvents zlInit events ⟨rfl, by decide, by decide⟩
  exact ⟨h.2.1, h.2.2⟩

/-- Witness for C8: a trace that grows the buffer size, at a state where the
growth guard holds. -/
theorem C8_adaptive_depth_bounds_witness :
    (3 ≤ (runEvents zlInit
        [JEvent.arrival 2 0 [], JEvent.arrival 3 0 [], JEvent.arrival 4 0 [], JEvent.arrival 5 0 [],
         JEvent.arrival 6 0 [], JEvent.arrival 7 0 [], JEvent.step]).jitter_buffer_size ∧
      (runEvents zlInit
        [JEvent.arrival 2 0 [], JEvent.arrival 3 0 [], JEvent.arrival 4 0 [], JEvent.arrival 5 0 [],
         JEvent.arrival 6 0 [], JEvent.arrival 7 0 [], JEvent.step]).jitter_buffer_size ≤ 10) ∧
    ((zlStart 4).jitter_buffer_size < (adaptSize (zlStart 4)).jitter_buffer_size →
      (zlStart 4).jitter_buffer.length > (zlStart 4).jitter_buffer_size ∧
        (zlStart 4).jitter_buffer_size < (zlStart 4).max_jitter_buffer) ∧
    ((adaptSize (zlStart 4)).jitter_buffer_size < (zlStart 4).jitter_buffer_size →
      (zlStart 4).jitter_buffer.length = 0 ∧ 3 < (zlStart 4).jitter_buffer_size) :=
  C8_adaptive_depth_bounds
    [JEvent.arrival 2 0 [], JEvent.arrival 3 0 [], JEvent.arrival 4 0 [], JEvent.arrival 5 0 [],
     JEvent.arrival 6 0 [], JEvent.arrival 7 0 [], JEvent.step] (zlStart 4)

/-- C10: `sender.py` starts each stream with `packet_count = 0` and packs the
header before incrementing, so the first packet of every stream carries
sequence number 0; the zero-loss receiver starts with `expected_packet = 1`
(which never decreases), so admitting that packet at any point only
increments `packets_late`, and sequence 0 is never enqueued for playback. -/
theorem C10_first_packet_always_late (events : List JEvent) (ts : Nat) (d : List Nat) :
    spInit.packet_count = 0 ∧
    fromBytesBE ((sp_packet spInit ts d).take 4) = 0 ∧
    1 ≤ (runEvents zlInit events).expected_packet ∧
    admitPacket (runEvents zlInit events) 0 ts d =
      { runEvents zlInit events with
          packets_received := (runEvents zlInit events).packets_received + 1
          packets_late := (runEvents zlInit events).packets_late + 1 } ∧
    (∀ f ∈ (runEvents zlInit events).output, f.seq ≠ 0) := by
  have hinv := zlInv_runEvents zlInit events (zlInv_start 5)
  refine ⟨rfl, ?_, hinv.exp_ge_one, ?_, ?_⟩
  · show fromBytesBE ((encodePacket 0 ts d).take 4) = 0
    rw [encodePacket, List.append_assoc, List.append_assoc,
      List.take_left' (toBytesBE_length 4 0)]
    exact fromBytesBE_toBytesBE 4 0 (by norm_num)
  · unfold admitPacket
    rw [if_pos (Nat.lt_of_lt_of_le Nat.zero_lt_one hinv.exp_ge_one)]
  · intro f hf
    have := hinv.out_ge_one f hf
    omega

/-- Witness for C10 at a concrete trace and payload. -/
theorem C10_first_packet_always_late_witness :
    spInit.packet_count = 0 ∧
    fromBytesBE ((sp_packet spInit 12345 [1, 2, 3]).take 4) = 0 ∧
    1 ≤ (runEvents zlInit [JEvent.arrival 1 0 [], JEvent.step]).expected_packet :=
  ⟨(C10_first_packet_always_late [JEvent.arrival 1 0 [], JEvent.step] 12345 [1, 2, 3]).1,
   (C10_first_packet_always_late [JEvent.arrival 1 0 [], JEvent.step] 12345 [1, 2, 3]).2.1,
   (C10_first_packet_always_late [JEvent.arrival 1 0 [], JEvent.step] 12345 [1, 2, 3]).2.2.1⟩

/-- C4 counterexample: a padded 17-byte datagram (declared payload length 0,
one trailing byte) is accepted by the zero-loss receiver's inline parsing,
although its declared length does not equal its length minus 16 — so padded
datagrams are not rejected there. -/
theorem C4_counterexample_padded_accepted :
    (zl_parse (List.replicate 17 0)).isSome = true ∧
    declaredLen (List.replicate 17 0) = 0 ∧
    (List.replicate 17 0).length - 16 = 1 := by decide

/-- C4 amended: only `reciever.py`'s `parse_udp_packet` enforces the
exact-length check (success iff total length equals 16 + declared payload
length); the inline parsing of `receiver_zero_loss.py` accepts any datagram
of at least `16 + payload_length` bytes (padding tolerated), and
`receiver.py` accepts any datagram of at least 16 bytes (truncated payloads
silently shortened). -/
theorem C4_amended_length_validation (packet : List Nat) :
    ((parse_udp_packet packet).isSome ↔
      packet.length = 16 + declaredLen packet) ∧
    ((zl_parse packet).isSome ↔
      16 ≤ packet.length ∧ 16 + declaredLen packet ≤ packet.length) ∧
    ((r1_parse packet).isSome ↔ 16 ≤ packet.length) := by
  unfold parse_udp_packet zl_parse r1_parse packet_header_size
  refine ⟨?_, ?_, ?_⟩
  · split
    · simp only [Option.isSome_none, Bool.false_eq_true, false_iff]
      omega
    · dsimp only
      split
      · simp only [Option.isSome_some, true_iff]
        omega
      · simp only [Option.isSome_none, Bool.false_eq_true, false_iff]
        omega
  · split
    · simp only [Option.isSome_none, Bool.false_eq_true, false_iff]
      omega
    · dsimp only
      split
      · simp only [Option.isSome_some, true_iff]
        omega
      · simp only [Option.isSome_none, Bool.false_eq_true, false_iff]
        omega
  · split
    · simp only [Option.isSome_none, Bool.false_eq_true, false_iff]
      omega
    · simp only [Option.isSome_some, true_iff]
      omega

/-- Witness for C4's amended statement on a well-formed 18-byte datagram. -/
theorem C4_amended_length_validation_witness :
    ((parse_udp_packet (encodePacket 1 2 [3, 4])).isSome ↔
      (encodePacket 1 2 [3, 4]).length = 16 + declaredLen (encodePacket 1 2 [3, 4])) ∧
    ((zl_parse (encodePacket 1 2 [3, 4])).isSome ↔
      16 ≤ (encodePacket 1 2 [3, 4]).length ∧
        16 + declaredLen (encodePacket 1 2 [3, 4]) ≤ (encodePacket 1 2 [3, 4]).length) ∧
    ((r1_parse (encodePacket 1 2 [3, 4])).isSome ↔ 16 ≤ (encodePacket 1 2 [3, 4]).length) :=
  C4_amended_length_validation (encodePacket 1 2 [3, 4])

/-- C7: decoding the encoding — big-endian u32 sequence, u64 timestamp,
u32 payload length, then the payload — returns exactly the encoded triple,
for every sequence below 2^32, timestamp below 2^64 and payload shorter than
2^32 entries. -/
theorem C7_roundtrip_framing (seq ts : Nat) (payload : List Nat)
    (h1 : seq < 2 ^ 32) (h2 : ts < 2 ^ 64) (h3 : payload.length < 2 ^ 32) :
    parse_udp_packet (encodePacket seq ts payload) =
      some ⟨seq, ts, payload.length, payload⟩ := by
  have e256 : (256 : Nat) ^ 4 = 2 ^ 32 := by norm_num
  have e256b : (256 : Nat) ^ 8 = 2 ^ 64 := by norm_num
  have hassoc : encodePacket seq ts payload =
      toBytesBE 4 seq ++ (toBytesBE 8 ts ++ (toBytesBE 4 payload.length ++ payload)) := by
    simp [encodePacket, List.append_assoc]
  have hlen : (encodePacket seq ts payload).length = 16 + payload.length := by
    simp [encodePacket, toBytesBE_length]
    omega
  have hdrop4 : (encodePacket seq ts payload).drop 4 =
      toBytesBE 8 ts ++ (toBytesBE 4 payload.length ++ payload) := by
    rw [hassoc, List.drop_left' (toBytesBE_length 4 seq)]
  have htake4 : (encodePacket seq ts payload).take 4 = toBytesBE 4 seq := by
    rw [hassoc, List.take_left' (toBytesBE_length 4 seq)]
  have htake8 : ((encodePacket seq ts payload).drop 4).take 8 = toBytesBE 8 ts := by
    rw [hdrop4, List.take_left' (toBytesBE_length 8 ts)]
  have hdrop12 : (encodePacket seq ts payload).drop 12 =
      toBytesBE 4 payload.length ++ payload := by
    rw [show (12 : Nat) = 4 + 8 from rfl, ← List.drop_drop, hdrop4,
      List.drop_left' (toBytesBE_length 8 ts)]
  have hdecl : declaredLen (encodePacket seq ts payload) = payload.length := by
    rw [declaredLen, hdrop12, List.take_left' (toBytesBE_length 4 payload.length)]
    exact fromBytesBE_toBytesBE 4 payload.length (by omega)
  have hdrop16 : (encodePacket seq ts payload).drop 16 = payload := by
    rw [show (16 : Nat) = 12 + 4 from rfl, ← List.drop_drop, hdrop12,
      List.drop_left' (toBytesBE_length 4 payload.length)]
  unfold parse_udp_packet packet_header_size
  rw [if_neg (by omega), if_pos (by rw [hdecl]; exact hlen), hdecl, htake4, htake8, hdrop16]
  rw [fromBytesBE_toBytesBE 4 seq (by omega), fromBytesBE_toBytesBE 8 ts (by omega),
    List.take_length]

/-- Witness for C7 at a concrete packet. -/
theorem C7_roundtrip_framing_witness :
    7 < 2 ^ 32 ∧ 123456789 < 2 ^ 64 ∧ [10, 20, 30].length < 2 ^ 32 ∧
    parse_udp_packet (encodePacket 7 123456789 [10, 20, 30]) =
      some ⟨7, 123456789, 3, [10, 20, 30]⟩ :=
  ⟨by norm_num, by norm_num, by norm_num,
   C7_roundtrip_framing 7 123456789 [10, 20, 30] (by norm_num) (by norm_num) (by norm_num)⟩

/-- C3 counterexample: after packet 5 the expected next sequence is 6; the
late packet 2 is classified out-of-order with the loss counter untouched in
`reciever.py`, but `last_sequence` is reset to 2, so the expected-next value
drops from 6 to 3; and in `receiver.py` the same arrival adds the negative
gap `2 - 6` to `lost_packets`, leaving it at `-4`. -/
theorem C3_counterexample_late_packet :
    (rx_track rxInit 5).last_sequence = some 5 ∧
    (rx_track (rx_track rxInit 5) 2).out_of_order_packets = 1 ∧
    (rx_track (rx_track rxInit 5) 2).lost_packets = 0 ∧
    (rx_track (rx_track rxInit 5) 2).last_sequence = some 2 ∧
    (2 : Nat) + 1 < 5 + 1 ∧
    (r1_track (r1_track r1Init 5) 2).lost_packets = -4 := by decide

/-- C3 amended: in `reciever.py`, a non-duplicate packet with sequence below
the expected next value increments `out_of_order_packets` and leaves
`lost_packets` unchanged, but resets `last_sequence` to the late sequence
(so the expected-next value does decrease); a packet with sequence strictly
above the expected next value adds exactly `sequence - expected_next` to
`lost_packets`.  (`receiver.py` has no late classification at all: it adds
the signed difference to `lost_packets` for every non-consecutive arrival.) -/
theorem C3_amended_late_classification (s : RxTracker) (pc last : Nat)
    (hdup : pc ∉ s.received_sequences) (hlast : s.last_sequence = some last) :
    (pc < last + 1 →
      (rx_track s pc).out_of_order_packets = s.out_of_order_packets + 1 ∧
      (rx_track s pc).lost_packets = s.lost_packets ∧
      (rx_track s pc).last_sequence = some pc) ∧
    (last + 1 < pc →
      (rx_track s pc).lost_packets = s.lost_packets + (pc - (last + 1)) ∧
      (rx_track s pc).out_of_order_packets = s.out_of_order_packets ∧
      (rx_track s pc).last_sequence = some pc) := by
  unfold rx_track
  rw [if_neg hdup]
  constructor
  · intro hlt
    rw [hlast]
    dsimp only
    rw [if_neg (by omega), if_pos hlt]
    exact ⟨rfl, rfl, rfl⟩
  · intro hgt
    rw [hlast]
    dsimp only
    rw [if_neg (by omega), if_neg (by omega)]
    exact ⟨rfl, rfl, rfl⟩

/-- Witness for C3's amended statement: state after packet 5, late packet 2
and gap packet 9. -/
theorem C3_amended_late_classification_witness :
    (2 ∉ (rx_track rxInit 5).received_sequences ∧
      (rx_track rxInit 5).last_sequence = some 5) ∧
    ((2 < 5 + 1 →
      (rx_track (rx_track rxInit 5) 2).out_of_order_packets =
        (rx_track rxInit 5).out_of_order_packets + 1 ∧
      (rx_track (rx_track rxInit 5) 2).lost_packets = (rx_track rxInit 5).lost_packets ∧
      (rx_track (rx_track rxInit 5) 2).last_sequence = some 2) ∧
    (5 + 1 < 2 →
      (rx_track (rx_track rxInit 5) 2).lost_packets =
        (rx_track rxInit 5).lost_packets + (2 - (5 + 1)) ∧
      (rx_track (rx_track rxInit 5) 2).out_of_order_packets =
        (rx_track rxInit 5).out_of_order_packets ∧
      (rx_track (rx_track rxInit 5) 2).last_sequence = some 2)) :=
  ⟨⟨by decide, by decide⟩,
   C3_amended_late_classification (rx_track rxInit 5) 2 5 (by decide) (by decide)⟩

/-- C9 counterexample: enqueueing into the zero-loss receiver's full playback
queue leaves the queue unchanged — the incoming frame is the one discarded,
not the oldest queued frame. -/
theorem C9_counterexample_incoming_dropped :
    zl_playback_enqueue (List.replicate 20 (0 : Nat)) 1 = List.replicate 20 0 ∧
    1 ∉ zl_playback_enqueue (List.replicate 20 (0 : Nat)) 1 := by decide

/-- C9 amended: the capture bridge of `sender_zero_loss.py` and the playback
queue of `receiver.py` resolve overflow by dropping the oldest queued frame
and admitting the newest, but the zero-loss receiver's playback queue
discards the incoming frame (`put_nowait` under `except queue.Full: pass`);
none of these enqueue operations block. -/
theorem C9_amended_overflow_policy {α : Type} (q : List α) (x : α) :
    (q.length = 5 → zl_sender_enqueue q x = q.drop 1 ++ [x]) ∧
    (q.length = 10 → r1_enqueue q x = q.drop 1 ++ [x]) ∧
    (q.length = 20 → zl_playback_enqueue q x = q) ∧
    (q.length < 5 → zl_sender_enqueue q x = q ++ [x]) ∧
    (q.length < 10 → r1_enqueue q x = q ++ [x]) ∧
    (q.length < 20 → zl_playback_enqueue q x = q ++ [x]) := by
  unfold zl_sender_enqueue r1_enqueue zl_playback_enqueue
  refine ⟨fun h => ?_, fun h => ?_, fun h => ?_, fun h => ?_, fun h => ?_, fun h => ?_⟩ <;>
    simp [h]

/-- Witness for C9's amended statement on full queues of each capacity. -/
theorem C9_amended_overflow_policy_witness :
    ((List.replicate 5 (0 : Nat)).length = 5 →
      zl_sender_enqueue (List.replicate 5 (0 : Nat)) 1 =
        (List.replicate 5 (0 : Nat)).drop 1 ++ [1]) ∧
    ((List.replicate 5 (0 : Nat)).length = 10 →
      r1_enqueue (List.replicate 5 (0 : Nat)) 1 = (List.replicate 5 (0 : Nat)).drop 1 ++ [1]) ∧
    ((List.replicate 5 (0 : Nat)).length = 20 →
      zl_playback_enqueue (List.replicate 5 (0 : Nat)) 1 = List.replicate 5 (0 : Nat)) ∧
    ((List.replicate 5 (0 : Nat)).length < 5 →
      zl_sender_enqueue (List.replicate 5 (0 : Nat)) 1 = List.replicate 5 (0 : Nat) ++ [1]) ∧
    ((List.replicate 5 (0 : Nat)).length < 10 →
      r1_enqueue (List.replicate 5 (0 : Nat)) 1 = List.replicate 5 (0 : Nat) ++ [1]) ∧
    ((List.replicate 5 (0 : Nat)).length < 20 →
      zl_playback_enqueue (List.replicate 5 (0 : Nat)) 1 = List.replicate 5 (0 : Nat) ++ [1]) :=
  C9_amended_overflow_policy (List.replicate 5 (0 : Nat)) 1

/-- The event trace used for the C6 counterexample: packet 1 is released
(a prior decoded frame exists), then a burst 3..8 overfills the buffer past
its size so that slot 2 is declared lost. -/
def c6_events : List JEvent :=
  [JEvent.arrival 1 0 [9], JEvent.step, JEvent.arrival 3 0 [], JEvent.arrival 4 0 [],
   JEvent.arrival 5 0 [], JEvent.arrival 6 0 [], JEvent.arrival 7 0 [], JEvent.arrival 8 0 [],
   JEvent.step]

/-- C6 counterexample: in the zero-loss receiver a decoded frame for packet 1
has already been released (`last_played_packet = 1`), yet the lost slot 2 is
concealed with the raw silence frame built by `handle_packet_loss`
(`np.zeros`), not with an attenuated copy of the prior frame. -/
theorem C6_counterexample_raw_silence :
    (runEvents zlInit c6_events).output = [PFrame.decoded 1 [9], PFrame.silence 2] ∧
    (runEvents zlInit c6_events).last_played_packet = 1 ∧
    (runEvents zlInit c6_events).loss_events = [2] ∧
    zl_concealment 960 2 = np_zeros 1920 := ⟨rfl, rfl, rfl, rfl⟩

/-- C6 amended: `receiver_zero_loss.py`'s slot-loss concealment
(`handle_packet_loss`) always enqueues raw silence, regardless of previously
released frames; the attenuated-last-frame strategy exists only in
`reciever.py`'s `generate_concealment_audio`, which halves the last played
frame sample-by-sample when one exists (a nonzero frame does not become raw
silence) and emits silence only when no frame was played yet. -/
theorem C6_amended_concealment (s : ZLState) (m : Nat) (fs ch : Nat)
    (f : List ℚ) (i : Nat) (j : Fin f.length) (hq : s.playback_queue.length < 20)
    (hnz : f.get j ≠ 0) :
    (handle_packet_loss s m).output = s.output ++ [PFrame.silence m] ∧
    generate_concealment_audio fs ch none = np_zeros (fs * ch) ∧
    (generate_concealment_audio fs ch (some f)).length = f.length ∧
    (generate_concealment_audio fs ch (some f))[i]? =
      (f[i]?).map (fun x => x * (1 / 2)) ∧
    generate_concealment_audio fs ch (some f) ≠ np_zeros f.length := by
  refine ⟨?_, rfl, by simp [generate_concealment_audio], ?_, ?_⟩
  · unfold handle_packet_loss zl_playback_enqueue
    dsimp only
    rw [if_pos hq]
  · simp [generate_concealment_audio]
  · intro heq
    have hj := congrArg (fun l => l[j.val]?) heq
    simp only [generate_concealment_audio, np_zeros, List.getElem?_map,
      List.getElem?_replicate, List.getElem?_eq_getElem j.isLt, if_pos j.isLt,
      Option.map_some', Option.some.injEq] at hj
    have h0 : f.get j = 0 := by
      rcases mul_eq_zero.mp hj with h | h
      · simpa [List.get_eq_getElem] using h
      · norm_num at h
    exact hnz h0

/-- Witness for C6's amended statement at a concrete state and frame. -/
theorem C6_amended_concealment_witness :
    (handle_packet_loss (zlStart 5) 4).output = (zlStart 5).output ++ [PFrame.silence 4] ∧
    generate_concealment_audio 1 1 none = np_zeros 1 ∧
    (generate_concealment_audio 1 1 (some [1])).length = [(1 : ℚ)].length ∧
    (generate_concealment_audio 1 1 (some [1]))[0]? =
      (([(1 : ℚ)])[0]?).map (fun x => x * (1 / 2)) ∧
    generate_concealment_audio 1 1 (some [1]) ≠ np_zeros [(1 : ℚ)].length :=
  C6_amended_concealment (zlStart 5) 4 1 1 [1] 0 ⟨0, by norm_num⟩ (by decide) (by norm_num)

theorem send_with_retry_invariants (t : SPState) (outs : List Bool) :
    (send_with_retry t outs).1.next_send_time = t.next_send_time ∧
    (send_with_retry t outs).1.packet_count = t.packet_count := by
  induction outs generalizing t with
  | nil => exact ⟨rfl, rfl⟩
  | cons ok rest ih =>
    unfold send_with_retry
    split
    · exact ⟨rfl, rfl⟩
    · exact ih _

/-- C2 counterexample: in `sender.py`, when all retries are exhausted
(`send_with_retry` returns `False`), `next_send_time` is left unchanged
rather than advanced by one frame period. -/
theorem C2_counterexample_no_advance_on_failure :
    (sp_send_packet (1 / 50) ⟨0, 0, 0, 0⟩ [false, false, false]).next_send_time = 0 ∧
    (0 : ℚ) + 1 / 50 ≠ 0 := by
  refine ⟨rfl, by norm_num⟩

/-- C2 amended: `sender_zero_loss.py`'s transmission thread advances
`next_send_time` by exactly one frame period (0.02 s) after every attempted
send regardless of the outcome; `sender.py`'s callback advances it by one
frame interval only when `send_with_retry` succeeds and leaves it unchanged
when all retries are exhausted. -/
theorem C2_amended_deadline_advance (s : ZLSPState) (ok : Bool) (iv : ℚ)
    (t : SPState) (outs : List Bool) :
    (zl_transmit_frame s ok).next_send_time = s.next_send_time + 1 / 50 ∧
    ((send_with_retry t outs).2 = true →
      (sp_send_packet iv t outs).next_send_time = t.next_send_time + iv) ∧
    ((send_with_retry t outs).2 = false →
      (sp_send_packet iv t outs).next_send_time = t.next_send_time) := by
  refine ⟨?_, ?_, ?_⟩
  · unfold zl_transmit_frame zl_send_frame
    cases ok <;> rfl
  · intro h
    unfold sp_send_packet
    dsimp only
    rw [h]
    simp only [if_true]
    exact congrArg (· + iv) (send_with_retry_invariants t outs).1
  · intro h
    unfold sp_send_packet
    dsimp only
    rw [h]
    simp only [Bool.false_eq_true, if_false]
    exact (send_with_retry_invariants t outs).1

/-- Witness for C2's amended statement: one failed single-attempt send on the
zero-loss sender, one successful and one fully failed retry sequence on the
main sender. -/
theorem C2_amended_deadline_advance_witness :
    (zl_transmit_frame ⟨0, 0, 0, 0⟩ false).next_send_time = 0 + 1 / 50 ∧
    ((send_with_retry ⟨0, 0, 0, 0⟩ [false, true, false]).2 = true →
      (sp_send_packet (1 / 50) ⟨0, 0, 0, 0⟩ [false, true, false]).next_send_time =
        0 + 1 / 50) ∧
    ((send_with_retry ⟨0, 0, 0, 0⟩ [false, true, false]).2 = false →
      (sp_send_packet (1 / 50) ⟨0, 0, 0, 0⟩ [false, true, false]).next_send_time = 0) :=
  C2_amended_deadline_advance ⟨0, 0, 0, 0⟩ false (1 / 50) ⟨0, 0, 0, 0⟩ [false, true, false]

/-- The four admissions of the C5 scenario: packets 1, 2, 4, 5 (3 missing). -/
def c5_admits : List JEvent :=
  [JEvent.arrival 1 0 [], JEvent.arrival 2 0 [], JEvent.arrival 4 0 [], JEvent.arrival 5 0 []]

/-- The engine state reached with `jitter_buffer_size = 2` after the four
admissions and two processing cycles: packets 1 and 2 released, cursor stuck
waiting for 3 with occupancy 2. -/
def c5_stalled : ZLState :=
  runEvents (zlStart 2) (c5_admits ++ [JEvent.step, JEvent.step])

theorem c5_stalled_fixpoint : processStep c5_stalled = c5_stalled := rfl

theorem c5_stall_steps (n : Nat) :
    runEvents c5_stalled (List.replicate n JEvent.step) = c5_stalled := by
  induction n with
  | zero => rfl
  | succ n ih =>
    rw [List.replicate_succ]
    show runEvents (applyEvent c5_stalled JEvent.step) (List.replicate n JEvent.step) =
      c5_stalled
    rw [show applyEvent c5_stalled JEvent.step = c5_stalled from c5_stalled_fixpoint]
    exact ih

/-- C5 counterexample: with `jitter_buffer_size = 2` and packets 1, 2, 4, 5
admitted, even after 50 processing cycles the engine has produced only the
two decoded frames 1 and 2 and the loss counter is 0 — not the claimed five
frames with one loss.  Concealment needs occupancy strictly above the size,
and the two buffered packets 4 and 5 never exceed 2. -/
theorem C5_counterexample_scenario_stalls :
    (runEvents (zlStart 2) (c5_admits ++ List.replicate 50 JEvent.step)).output =
      [PFrame.decoded 1 [], PFrame.decoded 2 []] ∧
    (runEvents (zlStart 2) (c5_admits ++ List.replicate 50 JEvent.step)).packets_lost = 0 := by
  have h : runEvents (zlStart 2) (c5_admits ++ List.replicate 50 JEvent.step) = c5_stalled := by
    rw [show (50 : Nat) = 2 + 48 from rfl, List.replicate_add, ← List.append_assoc,
      runEvents_append]
    exact c5_stall_steps 48
  rw [h]
  exact ⟨rfl, rfl⟩

/-- The C5 admissions interleaved with processing cycles as they would be in
real time, one packet per 20 ms cycle. -/
def c5_interleaved : List JEvent :=
  [JEvent.arrival 1 0 [], JEvent.step, JEvent.arrival 2 0 [], JEvent.step,
   JEvent.arrival 4 0 [], JEvent.step, JEvent.arrival 5 0 [], JEvent.step,
   JEvent.step, JEvent.step]

/-- C5 amended: with `jitter_buffer_size = 2` the engine releases decoded
frames 1 and 2 and then waits forever — for every number of further cycles
the state stays at the stall point with loss counter 0, cursor 3 and packets
4 and 5 still buffered (occupancy 2 never strictly exceeds the size).  The
claimed five-frame output (decoded 1, 2, concealment for 3, decoded 4, 5,
loss counter 1) is produced only when occupancy can exceed the depth, e.g.
with `jitter_buffer_size = 1` and arrivals interleaved with cycles. -/
theorem C5_amended_stall_at_depth_two (n : Nat) :
    runEvents (zlStart 2) (c5_admits ++ List.replicate (2 + n) JEvent.step) = c5_stalled ∧
    c5_stalled.output = [PFrame.decoded 1 [], PFrame.decoded 2 []] ∧
    c5_stalled.packets_lost = 0 ∧
    c5_stalled.expected_packet = 3 ∧
    c5_stalled.jitter_buffer = [(4, 0, []), (5, 0, [])] ∧
    (runEvents (zlStart 1) c5_interleaved).output =
      [PFrame.decoded 1 [], PFrame.decoded 2 [], PFrame.silence 3,
       PFrame.decoded 4 [], PFrame.decoded 5 []] ∧
    (runEvents (zlStart 1) c5_interleaved).packets_lost = 1 := by
  refine ⟨?_, rfl, rfl, rfl, rfl, rfl, rfl⟩
  rw [List.replicate_add, ← List.append_assoc, runEvents_append]
  exact c5_stall_steps n

/-- Witness for C5's amended statement at zero extra cycles. -/
theorem C5_amended_stall_at_depth_two_witness :
    runEvents (zlStart 2) (c5_admits ++ List.replicate (2 + 0) JEvent.step) = c5_stalled ∧
    c5_stalled.output = [PFrame.decoded 1 [], PFrame.decoded 2 []] ∧
    c5_stalled.packets_lost = 0 :=
  ⟨(C5_amended_stall_at_depth_two 0).1, (C5_amended_stall_at_depth_two 0).2.1,
   (C5_amended_stall_at_depth_two 0).2.2.1⟩
